import Mathlib

/-!
Shallow embedding of the cornerstone behavior-tree runtime (passchaos/cornerstone),
translated from the Rust sources under src/, together with theorems settling the
frozen claims about it.

The repository snapshot mixes two revisions:
* `src/src/lib.rs`, `src/src/node/mod.rs`, `src/src/node/action.rs` form the current
  revision: `NodeStatus` there has the four variants `Idle, Success, Failure, Running`
  and `TreeNode::tick` takes no context argument.
* `src/src/node/composite.rs`, `src/src/node/control.rs`, `src/src/node/decorator.rs`
  are a `Context`-era revision: every `match node.tick(ctx)` in those files covers
  exactly the three variants `Success`, `Failure`, `Running` with no `Idle` arm and
  no wildcard, so the node-status enumeration of that revision has exactly those
  three variants.  We embed it as `RtStatus`.
-/

namespace Cornerstone

/-- `NodeStatus` from `src/src/lib.rs` (lines 30-37): `Idle` (default), `Success`,
`Failure`, `Running`. -/
inductive NodeStatus where
  | Idle
  | Success
  | Failure
  | Running
deriving DecidableEq, Repr

/-- `NodeStatus.is_completed` from `src/src/lib.rs` (lines 40-42). -/
def NodeStatus.is_completed (s : NodeStatus) : Bool :=
  s = NodeStatus.Success || s = NodeStatus.Failure

/-- The node-status enumeration of the `Context`-era revision
(`src/src/node/composite.rs`, `control.rs`, `decorator.rs`): the tick-result
matches in those files cover exactly `Success`, `Failure`, `Running`. -/
inductive RtStatus where
  | Success
  | Failure
  | Running
deriving DecidableEq, Repr

/-- Injection of the three-variant status into the four-variant `NodeStatus`,
used to compare a `Context`-era tick result with a stored `NodeStatus`. -/
def RtStatus.toNodeStatus : RtStatus → NodeStatus
  | .Success => .Success
  | .Failure => .Failure
  | .Running => .Running

/-! ## Blackboard (`src/src/node/mod.rs`, lines 18-82)

A `Blackboard` owns a `storage : HashMap<String, Value>`, an optional weak parent
pointer, and an `internal_to_external : HashMap<String, String>` remapping.  We
model the chain of live blackboards reachable through parent pointers as a list of
scopes, the head being the blackboard itself; an empty tail means the parent is
absent or its weak reference is dead.  `HashMap` is modelled as an association
list with overwrite-on-insert, keeping the lookup/insert semantics of
`HashMap::get` / `HashMap::insert`.  The stored value type is kept abstract. -/

/-- `HashMap::insert`: overwrite the binding of `k` if present, else add it. -/
def insertA {α : Type} : List (String × α) → String → α → List (String × α)
  | [], k, v => [(k, v)]
  | (k', v') :: rest, k, v =>
    if k' = k then (k, v) :: rest else (k', v') :: insertA rest k v

/-- One blackboard: local storage plus the `internal_to_external` remapping
installed for `SubTree` ports (`src/src/node/mod.rs`, lines 18-23). -/
structure Scope (α : Type) where
  storage : List (String × α)
  internalToExternal : List (String × String)
deriving DecidableEq, Repr

/-- `Blackboard::get_entry` (`src/src/node/mod.rs`, lines 55-75): return the local
value if present; otherwise rewrite the key through `internal_to_external` (falling
back to the key itself) and recurse into the parent if it is still alive, else
return `None`.  An absent or dead (non-upgradable) parent is the empty chain,
whose lookup is `none` — the `else None` branch of the source. -/
def getEntry {α : Type} : List (Scope α) → String → Option α
  | [], _ => none
  | s :: ps, k =>
    match s.storage.lookup k with
    | some v => some v
    | none => getEntry ps ((s.internalToExternal.lookup k).getD k)

/-- `Blackboard::set` (`src/src/node/mod.rs`, lines 77-81): insert into the local
storage only; the parent chain is untouched. -/
def bbSet {α : Type} : List (Scope α) → String → α → List (Scope α)
  | [], _, _ => []
  | s :: ps, k, v => { s with storage := insertA s.storage k v } :: ps

/-! ## Port specs and `get_input` (`src/src/node/mod.rs`, lines 109-174) -/

/-- `str::starts_with` with a string pattern, on the character list.  (The
core-library `String.startsWith` does not reduce in the kernel, so the Rust
string primitives are modelled at the character-list level.) -/
def strStartsWith (s pat : List Char) : Bool :=
  pat.isPrefixOf s

/-- `str::ends_with` with a string pattern, on the character list. -/
def strEndsWith (s pat : List Char) : Bool :=
  pat.isSuffixOf s

/-- The scan of `str::replace`: replace every non-overlapping occurrence of the
non-empty pattern `pat`, left to right, with `repl`.  The first argument is
fuel, instantiated with the length of the scanned list so that the recursion is
structural; it never runs out because each step consumes at least one
character. -/
def strReplaceGo (pat repl : List Char) : Nat → List Char → List Char
  | 0, s => s
  | _ + 1, [] => []
  | fuel + 1, c :: rest =>
    if pat ≠ [] ∧ pat.isPrefixOf (c :: rest) then
      repl ++ strReplaceGo pat repl fuel ((c :: rest).drop pat.length)
    else
      c :: strReplaceGo pat repl fuel rest

/-- `str::replace` (the source only applies it to the non-empty patterns `"\x7b"`
and `"\x7d"`). -/
def strReplace (s pat repl : String) : String :=
  ⟨strReplaceGo pat.data repl.data s.data.length s.data⟩

/-- `is_ref_key` (`src/src/node/mod.rs`, lines 109-111):
`key.starts_with("\x7b") && key.ends_with("\x7d")`. -/
def isRefKey (key : String) : Bool :=
  strStartsWith key.data "\x7b".data && strEndsWith key.data "\x7d".data

/-- `strip_ref_tag` (`src/src/node/mod.rs`, lines 113-115):
`key.replace("\x7b", "").replace("\x7d", "")` — every `\x7b` and every `\x7d`
character is removed, wherever it occurs. -/
def stripRefTag (key : String) : String :=
  strReplace (strReplace key "\x7b" "") "\x7d" ""

/-- `DataProxy::get_input::<T>` (`src/src/node/mod.rs`, lines 155-174).
`parseLit` stands for `str::parse::<T>` and `fromValue` for
`serde_json::from_value::<T>`; `ports` is the proxy's `input_ports` map and `bb`
the chain of live blackboards headed by the proxy's own blackboard. -/
def getInput {α β : Type} (parseLit : String → Option β) (fromValue : α → Option β)
    (ports : List (String × String)) (bb : List (Scope α)) (key : String) : Option β :=
  match ports.lookup key with
  | none => none
  | some spec =>
    if isRefKey spec then
      match getEntry bb (stripRefTag spec) with
      | none => none
      | some v => fromValue v
    else
      parseLit spec

/-! ## Sequence (`src/src/node/composite.rs`, lines 80-99)

`Sequence::tick` iterates over `child_nodes` starting at `current_child_idx`
(`skip(from)`): a child `Failure` returns `Failure` at once, `Running` returns
`Running`, `Success` advances `current_child_idx` and continues; falling off the
end returns `Success`.  Children are modelled by the status each returns when
ticked this tick; the result carries the new `current_child_idx` and the number
of children actually ticked. -/

/-- The `for` loop body of `Sequence::tick`: `cs` are the statuses of the not yet
visited children, `idx` the running `current_child_idx`, `ticked` the count of
children ticked so far. -/
def seqGo : List RtStatus → Nat → Nat → RtStatus × Nat × Nat
  | [], idx, ticked => (.Success, idx, ticked)
  | c :: rest, idx, ticked =>
    match c with
    | .Failure => (.Failure, idx, ticked + 1)
    | .Running => (.Running, idx, ticked + 1)
    | .Success => seqGo rest (idx + 1) (ticked + 1)

/-- `Sequence::tick` (`src/src/node/composite.rs`, lines 80-99): tick the
children from `current_child_idx` on.  Returns (status, new index, ticked count). -/
def sequenceTick (children : List RtStatus) (currentChildIdx : Nat) : RtStatus × Nat × Nat :=
  seqGo (children.drop currentChildIdx) currentChildIdx 0

/-! ## Selector (`src/src/node/composite.rs`, lines 239-250)

`Selector::tick` iterates over all children from the beginning on every tick —
the struct has no `current_child_idx` field.  A child `Success` or `Running`
returns immediately; `Failure` continues; all failed returns `Failure`.
The second component counts the children ticked; the children ticked are exactly
the first that many, in declaration order. -/

/-- `Selector::tick` (`src/src/node/composite.rs`, lines 239-250). -/
def selectorTick : List RtStatus → RtStatus × Nat
  | [] => (.Failure, 0)
  | c :: rest =>
    match c with
    | .Success => (.Success, 1)
    | .Running => (.Running, 1)
    | .Failure =>
      let (r, k) := selectorTick rest
      (r, k + 1)

/-! ## Parallel (`src/src/node/composite.rs`, lines 120-207 and
`src/src/node/control.rs`, lines 52-118)

State: `success_count`, `failure_count`, `completed_list : HashSet<usize>`
(modelled as a `Finset`).  Each tick first computes the effective thresholds:
the `success_count` / `failure_count` input ports if present
(`get_string_parsed`, a `DataProxy` method of the `Context`-era revision not
present under src/, modelled by the `Option` it returns), else the
`success_threshold` / `failure_threshold` fields (`Parallel::new` sets both to
`None`; `ParallelNode::new` takes them as arguments), else the number of
children.  Zero children returns `Failure`.  Otherwise children are visited in
declaration order, skipping those in `completed_list`. -/

structure ParState where
  successCount : Nat
  failureCount : Nat
  completed : Finset Nat
deriving DecidableEq

/-- Effective threshold: port value, else field value, else children count
(`src/src/node/composite.rs`, lines 162-172). -/
def parThreshold (port field : Option Nat) (childrenCount : Nat) : Nat :=
  port.getD (field.getD childrenCount)

/-- The `for i in 0..children_count` loop of `Parallel::tick`
(`src/src/node/composite.rs`, lines 178-206): `cs` are the statuses the children
`i, i+1, …` return when ticked; indices in `completed` are skipped; a completed
child bumps the matching counter, is inserted into `completed`, and then the
success check runs before the failure check; falling off the end returns
`Running`. -/
def parGo (st ft : Nat) : List RtStatus → Nat → ParState → RtStatus × ParState
  | [], _, s => (.Running, s)
  | c :: rest, i, s =>
    if i ∈ s.completed then
      parGo st ft rest (i + 1) s
    else
      match c with
      | .Running => parGo st ft rest (i + 1) s
      | .Success =>
        let s' : ParState :=
          { s with successCount := s.successCount + 1, completed := insert i s.completed }
        if st ≤ s'.successCount then (.Success, s')
        else if ft ≤ s'.failureCount then (.Failure, s')
        else parGo st ft rest (i + 1) s'
      | .Failure =>
        let s' : ParState :=
          { s with failureCount := s.failureCount + 1, completed := insert i s.completed }
        if st ≤ s'.successCount then (.Success, s')
        else if ft ≤ s'.failureCount then (.Failure, s')
        else parGo st ft rest (i + 1) s'

/-- `Parallel::tick` (`src/src/node/composite.rs`, lines 158-207): compute the
effective thresholds, return `Failure` when there are zero children, else run
the loop over all children. -/
def parallelTick (portS portF fieldS fieldF : Option Nat)
    (cs : List RtStatus) (s : ParState) : RtStatus × ParState :=
  let childrenCount := cs.length
  let st := parThreshold portS fieldS childrenCount
  let ft := parThreshold portF fieldF childrenCount
  if childrenCount = 0 then (.Failure, s)
  else parGo st ft cs 0 s

/-- A run of consecutive `Parallel::tick` calls: `css` lists, tick by tick, the
status each child would return if actually ticked that tick.  Returns the list
of tick results and the final state. -/
def parallelRun (portS portF fieldS fieldF : Option Nat) :
    List (List RtStatus) → ParState → List RtStatus × ParState
  | [], s => ([], s)
  | cs :: rest, s =>
    let (r, s') := parallelTick portS portF fieldS fieldF cs s
    let (rs, s'') := parallelRun portS portF fieldS fieldF rest s'
    (r :: rs, s'')

/-! ## Repeat (`src/src/node/decorator.rs`, lines 228-301)

State: `repeat_count`; configuration: the `num_cycles` input port, defaulting to
the `num_cycles` field (`Decorator::new` sets it to 0; `new_with_count` to the
given count).  If the effective `num_cycles` is 0 the tick returns `Success`
without ticking the child.  Otherwise the child is ticked once: on a completed
status `repeat_count` is incremented and the status is returned when
`repeat_count == num_cycles`, else `Running`; `Running` passes through. -/

/-- `Repeat::tick` (`src/src/node/decorator.rs`, lines 255-281): one outer tick.
`childStatus` is what the child returns if ticked.  Returns
(result, new `repeat_count`, number of child ticks issued this outer tick). -/
def repeatTick (numCyclesPort : Option Nat) (numCyclesField : Nat)
    (repeatCount : Nat) (childStatus : RtStatus) : RtStatus × Nat × Nat :=
  let numCycles := numCyclesPort.getD numCyclesField
  if numCycles = 0 then (.Success, repeatCount, 0)
  else
    match childStatus with
    | .Success =>
      if repeatCount + 1 = numCycles then (.Success, repeatCount + 1, 1)
      else (.Running, repeatCount + 1, 1)
    | .Failure =>
      if repeatCount + 1 = numCycles then (.Failure, repeatCount + 1, 1)
      else (.Running, repeatCount + 1, 1)
    | .Running => (.Running, repeatCount, 1)

/-- `k` consecutive `Repeat::tick` calls over a child that always returns
`Success`, with `num_cycles` read from the port.  Returns the list of outer tick
results and the total number of child ticks issued. -/
def repeatTicksSucc (numCycles : Nat) : Nat → Nat → List RtStatus × Nat
  | 0, _ => ([], 0)
  | k + 1, repeatCount =>
    let (r, rc, ct) := repeatTick (some numCycles) 0 repeatCount .Success
    let (rs, cts) := repeatTicksSucc numCycles k rc
    (r :: rs, ct + cts)

/-! ## Retry (`src/src/node/decorator.rs`, lines 303-342)

State: `try_count` (0 at construction); configuration: the `num_attempts` input
port, defaulting to 1.  `Retry::tick` loops `while try_count <= num_attempts`:
a child `Failure` increments `try_count` and continues the loop, `Running` and
`Success` return immediately; when the loop guard fails, `Failure` is returned. -/

/-- The `while try_count <= num_attempts` loop of `Retry::tick`
(`src/src/node/decorator.rs`, lines 330-341).  `child j` is the status the child
returns on its `j`-th inner tick; `ticks` counts inner ticks issued so far.
Returns (result, new `try_count`, total inner ticks issued). -/
def retryGo (numAttempts : Nat) (child : Nat → RtStatus) (tryCount ticks : Nat) :
    RtStatus × Nat × Nat :=
  if tryCount ≤ numAttempts then
    match child ticks with
    | .Failure => retryGo numAttempts child (tryCount + 1) (ticks + 1)
    | .Running => (.Running, tryCount, ticks + 1)
    | .Success => (.Success, tryCount, ticks + 1)
  else
    (.Failure, tryCount, ticks)
termination_by numAttempts + 1 - tryCount
decreasing_by omega

/-- `Retry::tick` (`src/src/node/decorator.rs`, lines 322-342): read
`num_attempts` from the port (default 1) and run the loop from the current
`try_count` with no inner ticks issued yet. -/
def retryTick (numAttemptsPort : Option Nat) (tryCount : Nat) (child : Nat → RtStatus) :
    RtStatus × Nat × Nat :=
  retryGo (numAttemptsPort.getD 1) child tryCount 0

/-! ## Wrapper ticks

`ActionWrapper::tick` (`src/src/node/action.rs`, lines 22-32): if the proxy
status is `Idle`, set it to `Running`; then run the action's `tick_status`,
persist its result with `set_status`, and return it.

`CompositeWrapper::tick` (`src/src/node/composite.rs`, lines 26-31) and
`DecoratorWrapper::tick` (`src/src/node/decorator.rs`, lines 23-28) delegate
directly to the kind-specific `tick_status` and never touch the proxy status.

`TreeNodeWrapper::tick` (`src/src/lib.rs`, lines 187-199) dispatches into the
variant without any status bookkeeping of its own.

Each embedding takes the stored proxy status and the status the kind-specific
`tick_status` produces, and returns (intermediate status after the `Idle` check,
returned status, stored status after the tick). -/

/-- `ActionWrapper::tick` (`src/src/node/action.rs`, lines 22-32). -/
def actionWrapperTick (status : NodeStatus) (tickStatusResult : NodeStatus) :
    NodeStatus × NodeStatus × NodeStatus :=
  let intermediate := if status = NodeStatus.Idle then NodeStatus.Running else status
  (intermediate, tickStatusResult, tickStatusResult)

/-- `CompositeWrapper::tick` (`src/src/node/composite.rs`, lines 26-31): pure
delegation to `tick_status`; the data proxy status is not read or written. -/
def compositeWrapperTick (status : NodeStatus) (tickStatusResult : RtStatus) :
    NodeStatus × RtStatus × NodeStatus :=
  (status, tickStatusResult, status)

/-- `DecoratorWrapper::tick` (`src/src/node/decorator.rs`, lines 23-28): pure
delegation to `tick_status`; the data proxy status is not read or written. -/
def decoratorWrapperTick (status : NodeStatus) (tickStatusResult : RtStatus) :
    NodeStatus × RtStatus × NodeStatus :=
  (status, tickStatusResult, status)

/-! ## SetBlackboard (`src/src/node/action.rs`, lines 47-64) -/

/-- `DataProxy::get_input::<String>`: the literal branch uses
`str::parse::<String>`, which never fails; the reference branch deserializes the
blackboard value with `serde_json::from_value::<String>`, which succeeds exactly
on JSON strings.  The blackboard value type is instantiated with `Option String`:
`some s` stands for `serde_json::Value::String(s)` and `none` for any
non-string JSON value. -/
def getInputString (ports : List (String × String)) (bb : List (Scope (Option String)))
    (key : String) : Option String :=
  getInput (fun s => some s) id ports bb key

/-- `SetBlackboard::tick_status` (`src/src/node/action.rs`, lines 50-63): read
the `output_key` port as a string, else return `Failure`; read the `value` port
as a string, else return `Failure`; write `json!(value)` under `output_key` into
the blackboard and return `Success`.  Returns the status and the blackboard
chain after the tick. -/
def setBlackboardTick (ports : List (String × String)) (bb : List (Scope (Option String))) :
    NodeStatus × List (Scope (Option String)) :=
  match getInputString ports bb "output_key" with
  | none => (.Failure, bb)
  | some outputKey =>
    match getInputString ports bb "value" with
    | none => (.Failure, bb)
    | some value => (.Success, bbSet bb outputKey (some value))

/-! ## Theorems -/

/-- Specification of the `Sequence::tick` loop over children with completed
statuses: `Success` iff all children succeed, else `Failure` at the first
failing child, having ticked exactly the children up to and including it. -/
theorem seqGo_completed (cs : List RtStatus) (h : ∀ s ∈ cs, s ≠ RtStatus.Running)
    (idx t : Nat) :
    ((seqGo cs idx t).1 = RtStatus.Success ↔ ∀ s ∈ cs, s = RtStatus.Success) ∧
    ((¬ ∀ s ∈ cs, s = RtStatus.Success) →
      (seqGo cs idx t).1 = RtStatus.Failure ∧
      (seqGo cs idx t).2.2 =
        t + (cs.takeWhile (fun s => s == RtStatus.Success)).length + 1) := by
  induction cs generalizing idx t with
  | nil => simp [seqGo]
  | cons c rest ih =>
    cases c with
    | Running => exact absurd rfl (h RtStatus.Running (by simp))
    | Failure =>
      have hna : ¬ ∀ s ∈ RtStatus.Failure :: rest, s = RtStatus.Success := by
        intro hall
        exact absurd (hall RtStatus.Failure (by simp)) (by decide)
      have hres : seqGo (RtStatus.Failure :: rest) idx t = (RtStatus.Failure, idx, t + 1) := rfl
      have htw : (RtStatus.Failure :: rest).takeWhile (fun s => s == RtStatus.Success) = [] := rfl
      rw [hres]
      refine ⟨?_, fun _ => ⟨rfl, ?_⟩⟩
      · constructor
        · intro hc; exact RtStatus.noConfusion hc
        · intro hall; exact absurd hall hna
      · rw [htw]; simp
    | Success =>
      have h' : ∀ s ∈ rest, s ≠ RtStatus.Running := fun s hs => h s (by simp [hs])
      have ihr := ih h' (idx + 1) (t + 1)
      have hgo : seqGo (RtStatus.Success :: rest) idx t = seqGo rest (idx + 1) (t + 1) := rfl
      have htw : (RtStatus.Success :: rest).takeWhile (fun s => s == RtStatus.Success) =
          RtStatus.Success :: rest.takeWhile (fun s => s == RtStatus.Success) := rfl
      rw [hgo]
      refine ⟨?_, ?_⟩
      · rw [ihr.1, List.forall_mem_cons]; simp
      · intro hna
        have hna' : ¬ ∀ s ∈ rest, s = RtStatus.Success := by
          intro hall
          refine hna ?_
          intro s hs
          rcases List.mem_cons.1 hs with h1 | h2
          · simp [h1]
          · exact hall s h2
        refine ⟨(ihr.2 hna').1, ?_⟩
        rw [(ihr.2 hna').2, htw]
        simp
        omega

/-- C1: for a `Sequence` (fresh, `current_child_idx = 0`) whose children each
return a completed status when ticked, `tick` returns `Success` iff every child
returns `Success`; otherwise it returns `Failure` at the first failing child —
exactly the children up to and including that child are ticked, and the ones
after it are not. -/
theorem c1_sequence_completed (cs : List RtStatus)
    (h : ∀ s ∈ cs, s ≠ RtStatus.Running) :
    ((sequenceTick cs 0).1 = RtStatus.Success ↔ ∀ s ∈ cs, s = RtStatus.Success) ∧
    ((¬ ∀ s ∈ cs, s = RtStatus.Success) →
      (sequenceTick cs 0).1 = RtStatus.Failure ∧
      (sequenceTick cs 0).2.2 =
        (cs.takeWhile (fun s => s == RtStatus.Success)).length + 1) := by
  have hs := seqGo_completed cs h 0 0
  simpa [sequenceTick] using hs

/-- C1 witness: the sequence over children returning `Success, Failure, Success`
fails on its second child, ticking exactly two children. -/
theorem c1_sequence_completed_witness :
    ((sequenceTick [RtStatus.Success, RtStatus.Failure, RtStatus.Success] 0).1 =
        RtStatus.Success ↔
      ∀ s ∈ [RtStatus.Success, RtStatus.Failure, RtStatus.Success],
        s = RtStatus.Success) ∧
    ((¬ ∀ s ∈ [RtStatus.Success, RtStatus.Failure, RtStatus.Success],
        s = RtStatus.Success) →
      (sequenceTick [RtStatus.Success, RtStatus.Failure, RtStatus.Success] 0).1 =
        RtStatus.Failure ∧
      (sequenceTick [RtStatus.Success, RtStatus.Failure, RtStatus.Success] 0).2.2 =
        (([RtStatus.Success, RtStatus.Failure, RtStatus.Success].takeWhile
          (fun s => s == RtStatus.Success)).length + 1)) :=
  c1_sequence_completed [RtStatus.Success, RtStatus.Failure, RtStatus.Success]
    (by decide)

/-- The `Retry::tick` loop over an always-failing child: starting from
`try_count = tryCount ≤ num_attempts + 1`, it issues one inner tick per loop
iteration until `try_count` exceeds `num_attempts`, so `num_attempts + 1 - tryCount`
further inner ticks happen and the result is `Failure`. -/
theorem retryGo_alwaysFail (numAttempts : Nat) :
    ∀ tryCount ticks, tryCount ≤ numAttempts + 1 →
      retryGo numAttempts (fun _ => RtStatus.Failure) tryCount ticks =
        (RtStatus.Failure, numAttempts + 1, ticks + (numAttempts + 1 - tryCount)) := by
  suffices hd : ∀ d tryCount ticks, numAttempts + 1 - tryCount = d →
      tryCount ≤ numAttempts + 1 →
      retryGo numAttempts (fun _ => RtStatus.Failure) tryCount ticks =
        (RtStatus.Failure, numAttempts + 1, ticks + (numAttempts + 1 - tryCount)) by
    intro tryCount ticks hle
    exact hd (numAttempts + 1 - tryCount) tryCount ticks rfl hle
  intro d
  induction d with
  | zero =>
    intro tc ticks hdz hle
    have htc : tc = numAttempts + 1 := by omega
    subst htc
    rw [retryGo]
    simp
  | succ d ihd =>
    intro tc ticks hds hle
    have hcond : tc ≤ numAttempts := by omega
    have hstep : retryGo numAttempts (fun _ => RtStatus.Failure) tc ticks =
        retryGo numAttempts (fun _ => RtStatus.Failure) (tc + 1) (ticks + 1) := by
      rw [retryGo]
      simp [hcond]
    rw [hstep, ihd (tc + 1) (ticks + 1) (by omega) (by omega)]
    have harith : ticks + 1 + (numAttempts + 1 - (tc + 1)) =
        ticks + (numAttempts + 1 - tc) := by omega
    rw [harith]

/-- C3 counterexample: a `Retry` with `num_attempts = 0` over an always-failing
child issues one inner tick (not zero) before returning `Failure`: the loop
guard is `try_count <= num_attempts`, so `try_count = 0` enters the body once. -/
theorem c3_retry_counterexample :
    retryTick (some 0) 0 (fun _ => RtStatus.Failure) = (RtStatus.Failure, 1, 1) ∧
    (1 : Nat) ≠ 0 := by
  have h := retryGo_alwaysFail 0 0 0 (by omega)
  exact ⟨by simpa [retryTick] using h, by omega⟩

/-- C3 amended: a `Retry` with `num_attempts = n` wrapping an always-`Failure`
child issues exactly `n + 1` inner ticks before returning `Failure` (the loop
runs for `try_count = 0, 1, …, n`); in particular `num_attempts = 0` yields
`Failure` after exactly one inner tick. -/
theorem c3_retry_amended (n : Nat) :
    retryTick (some n) 0 (fun _ => RtStatus.Failure) =
      (RtStatus.Failure, n + 1, n + 1) := by
  have h := retryGo_alwaysFail n 0 0 (by omega)
  simpa [retryTick] using h

/-- A run of `k + 1` consecutive `Repeat::tick` calls over an always-`Success`
child, from `repeat_count = rc` with `rc + (k + 1) = num_cycles`: every tick but
the last returns `Running`, the last returns `Success`, and one child tick is
issued per outer tick. -/
theorem repeatTicksSucc_formula (n : Nat) :
    ∀ k rc, rc + (k + 1) = n →
      repeatTicksSucc n (k + 1) rc =
        (List.replicate k RtStatus.Running ++ [RtStatus.Success], k + 1) := by
  intro k
  induction k with
  | zero =>
    intro rc h
    have hn0 : ¬ n = 0 := by omega
    have heq : rc + 1 = n := by omega
    simp [repeatTicksSucc, repeatTick, hn0, heq]
  | succ k ihk =>
    intro rc h
    have hn0 : ¬ n = 0 := by omega
    have hne : ¬ rc + 1 = n := by omega
    have ihr := ihk (rc + 1) (by omega)
    have hstep : repeatTick (some n) 0 rc RtStatus.Success = (RtStatus.Running, rc + 1, 1) := by
      simp [repeatTick, hn0, hne]
    have hrun : repeatTicksSucc n (k + 1 + 1) rc =
        (RtStatus.Running :: (List.replicate k RtStatus.Running ++ [RtStatus.Success]),
          1 + (k + 1)) := by
      rw [repeatTicksSucc, hstep]
      simp only [ihr]
    rw [hrun]
    refine Prod.ext ?_ ?_
    · simp [List.replicate_succ]
    · simp; omega

/-- C4: a `Repeat` with `num_cycles = n ≥ 1` (read from the port) over an
always-`Success` child produces the outer tick results
`Running, …, Running, Success` (`n - 1` times `Running`), issues exactly `n`
child ticks in total, and ticks the child exactly once per outer tick. -/
theorem c4_repeat (n : Nat) (hn : 1 ≤ n) :
    repeatTicksSucc n n 0 =
      (List.replicate (n - 1) RtStatus.Running ++ [RtStatus.Success], n) ∧
    (∀ rc, (repeatTick (some n) 0 rc RtStatus.Success).2.2 = 1) := by
  constructor
  · obtain ⟨k, rfl⟩ : ∃ k, n = k + 1 := ⟨n - 1, by omega⟩
    simpa using repeatTicksSucc_formula (k + 1) k 0 (by omega)
  · intro rc
    have hn0 : ¬ n = 0 := by omega
    by_cases h : rc + 1 = n <;> simp [repeatTick, hn0, h]

/-- C4 witness: `num_cycles = 3` gives tick results `Running, Running, Success`
with the child ticked exactly 3 times (spec scenario 4). -/
theorem c4_repeat_witness :
    repeatTicksSucc 3 3 0 =
      (List.replicate 2 RtStatus.Running ++ [RtStatus.Success], 3) :=
  (c4_repeat 3 (by decide)).1

/-- C6 counterexample: `Selector::tick` has no `current_child_idx` state — on a
tick where the children respond `Failure, Running`, both children are ticked, so
on the tick after child 0 failed and child 1 ran, child 0 is ticked again (the
claim predicts only one child would be ticked). -/
theorem c6_selector_counterexample :
    selectorTick [RtStatus.Failure, RtStatus.Running] = (RtStatus.Running, 2) ∧
    (2 : Nat) ≠ 1 := by
  decide

/-- C6 amended: `Selector` keeps no index state; every tick starts at child 0
and ticks children in declaration order, returning at the first child whose
status is not `Failure` (or `Failure` after all children); hence a child that
returned `Failure` before a later sibling returned `Running` is ticked again on
the following tick.  The ticked children are exactly the first
`min (leadingFailures + 1) length` ones. -/
theorem c6_selector_stateless (cs : List RtStatus) :
    (selectorTick cs).1 =
      ((cs.drop ((cs.takeWhile (fun c => c == RtStatus.Failure)).length)).headD
        RtStatus.Failure) ∧
    (selectorTick cs).2 =
      min ((cs.takeWhile (fun c => c == RtStatus.Failure)).length + 1) cs.length := by
  induction cs with
  | nil => decide
  | cons c rest ih =>
    cases c with
    | Success =>
      have htw : (RtStatus.Success :: rest).takeWhile (fun c => c == RtStatus.Failure) = [] := rfl
      have hsel : selectorTick (RtStatus.Success :: rest) = (RtStatus.Success, 1) := rfl
      rw [hsel, htw]
      exact ⟨rfl, by simp⟩
    | Running =>
      have htw : (RtStatus.Running :: rest).takeWhile (fun c => c == RtStatus.Failure) = [] := rfl
      have hsel : selectorTick (RtStatus.Running :: rest) = (RtStatus.Running, 1) := rfl
      rw [hsel, htw]
      exact ⟨rfl, by simp⟩
    | Failure =>
      have htw : (RtStatus.Failure :: rest).takeWhile (fun c => c == RtStatus.Failure) =
          RtStatus.Failure :: rest.takeWhile (fun c => c == RtStatus.Failure) := rfl
      have hsel : selectorTick (RtStatus.Failure :: rest) =
          ((selectorTick rest).1, (selectorTick rest).2 + 1) := rfl
      rw [hsel, htw]
      refine ⟨?_, ?_⟩
      · rw [List.length_cons, List.drop_succ_cons]
        exact ih.1
      · rw [List.length_cons, List.length_cons, ih.2]
        omega

/-- Specification of the `Parallel::tick` child loop: starting below both
thresholds, the loop returns `Success` exactly when the cumulative success
count reaches the success threshold (and then equals it exactly — the tick
during which the threshold-th success is observed), and `Failure` exactly when
the cumulative failure count reaches the failure threshold. -/
theorem parGo_spec (st ft : Nat) (cs : List RtStatus) :
    ∀ (i : Nat) (s : ParState), s.successCount < st → s.failureCount < ft →
      ((parGo st ft cs i s).1 = RtStatus.Success ↔
        st ≤ (parGo st ft cs i s).2.successCount) ∧
      ((parGo st ft cs i s).1 = RtStatus.Failure ↔
        ft ≤ (parGo st ft cs i s).2.failureCount) ∧
      ((parGo st ft cs i s).1 = RtStatus.Success →
        (parGo st ft cs i s).2.successCount = st) ∧
      ((parGo st ft cs i s).1 = RtStatus.Failure →
        (parGo st ft cs i s).2.failureCount = ft) := by
  induction cs with
  | nil =>
    intro i s hs hf
    refine ⟨?_, ?_, ?_, ?_⟩
    · simp [parGo]; omega
    · simp [parGo]; omega
    · simp [parGo]
    · simp [parGo]
  | cons c rest ih =>
    intro i s hs hf
    by_cases hmem : i ∈ s.completed
    · have hgo : parGo st ft (c :: rest) i s = parGo st ft rest (i + 1) s := by
        simp [parGo, hmem]
      rw [hgo]
      exact ih (i + 1) s hs hf
    · cases c with
      | Running =>
        have hgo : parGo st ft (RtStatus.Running :: rest) i s =
            parGo st ft rest (i + 1) s := by
          simp [parGo, hmem]
        rw [hgo]
        exact ih (i + 1) s hs hf
      | Success =>
        by_cases hst : st ≤ s.successCount + 1
        · have hgo : parGo st ft (RtStatus.Success :: rest) i s =
              (RtStatus.Success,
                { s with successCount := s.successCount + 1,
                         completed := insert i s.completed }) := by
            simp [parGo, hmem, hst]
          rw [hgo]
          refine ⟨by simpa using hst, ?_, fun _ => by simp; omega,
            fun h => RtStatus.noConfusion h⟩
          exact ⟨fun h => RtStatus.noConfusion h, fun h => absurd h (by simp; omega)⟩
        · have hft : ¬ ft ≤ s.failureCount := by omega
          have hgo : parGo st ft (RtStatus.Success :: rest) i s =
              parGo st ft rest (i + 1)
                { s with successCount := s.successCount + 1,
                         completed := insert i s.completed } := by
            simp [parGo, hmem, hst, hft]
          rw [hgo]
          exact ih (i + 1) _ (by simp; omega) (by simp; omega)
      | Failure =>
        by_cases hft : ft ≤ s.failureCount + 1
        · have hst : ¬ st ≤ s.successCount := by omega
          have hgo : parGo st ft (RtStatus.Failure :: rest) i s =
              (RtStatus.Failure,
                { s with failureCount := s.failureCount + 1,
                         completed := insert i s.completed }) := by
            simp [parGo, hmem, hst, hft]
          rw [hgo]
          refine ⟨⟨fun h => RtStatus.noConfusion h, fun h => absurd h (by simp; omega)⟩,
            by simpa using hft, fun h => RtStatus.noConfusion h, fun _ => by simp; omega⟩
        · have hst : ¬ st ≤ s.successCount := by omega
          have hgo : parGo st ft (RtStatus.Failure :: rest) i s =
              parGo st ft rest (i + 1)
                { s with failureCount := s.failureCount + 1,
                         completed := insert i s.completed } := by
            simp [parGo, hmem, hst, hft]
          rw [hgo]
          exact ih (i + 1) _ (by simp; omega) (by simp; omega)

/-- C2: for every `Parallel`, with effective thresholds computed as port value /
struct field / children-count fallback (`parThreshold`), a tick entered with
both counters strictly below their thresholds returns `Success` exactly on the
tick during which the cumulative success count reaches the success threshold
(and it then equals the threshold: the threshold-th success is the one
observed), and `Failure` exactly on the tick during which the cumulative
failure count reaches the failure threshold; when a port is absent and no
constructor threshold was given the threshold defaults to the number of
children.  Children are visited in declaration order, skipping completed ones
(see `parGo`). -/
theorem c2_parallel_thresholds (portS portF fieldS fieldF : Option Nat)
    (cs : List RtStatus) (s : ParState)
    (hn : 0 < cs.length)
    (hs : s.successCount < parThreshold portS fieldS cs.length)
    (hf : s.failureCount < parThreshold portF fieldF cs.length) :
    ((parallelTick portS portF fieldS fieldF cs s).1 = RtStatus.Success ↔
      parThreshold portS fieldS cs.length ≤
        (parallelTick portS portF fieldS fieldF cs s).2.successCount) ∧
    ((parallelTick portS portF fieldS fieldF cs s).1 = RtStatus.Success →
      (parallelTick portS portF fieldS fieldF cs s).2.successCount =
        parThreshold portS fieldS cs.length) ∧
    ((parallelTick portS portF fieldS fieldF cs s).1 = RtStatus.Failure ↔
      parThreshold portF fieldF cs.length ≤
        (parallelTick portS portF fieldS fieldF cs s).2.failureCount) ∧
    ((parallelTick portS portF fieldS fieldF cs s).1 = RtStatus.Failure →
      (parallelTick portS portF fieldS fieldF cs s).2.failureCount =
        parThreshold portF fieldF cs.length) ∧
    (portS = none → fieldS = none → parThreshold portS fieldS cs.length = cs.length) ∧
    (portF = none → fieldF = none → parThreshold portF fieldF cs.length = cs.length) := by
  have hne : ¬ cs.length = 0 := by omega
  have hpt : parallelTick portS portF fieldS fieldF cs s =
      parGo (parThreshold portS fieldS cs.length) (parThreshold portF fieldF cs.length)
        cs 0 s := by
    simp [parallelTick, hne]
  rw [hpt]
  have hspec := parGo_spec (parThreshold portS fieldS cs.length)
    (parThreshold portF fieldF cs.length) cs 0 s hs hf
  exact ⟨hspec.1, hspec.2.2.1, hspec.2.1, hspec.2.2.2,
    fun h1 h2 => by simp [parThreshold, h1, h2],
    fun h1 h2 => by simp [parThreshold, h1, h2]⟩

/-- C2 witness: spec scenario 5 — `success_count = 1`, `failure_count = 2`,
children responding `Failure, Failure, Success`: the tick returns `Failure`
when the second failure is observed (before the success is reached). -/
theorem c2_parallel_thresholds_witness :
    ((parallelTick (some 1) (some 2) none none
        [RtStatus.Failure, RtStatus.Failure, RtStatus.Success]
        (ParState.mk 0 0 ∅)).1 = RtStatus.Success ↔
      parThreshold (some 1) none
          [RtStatus.Failure, RtStatus.Failure, RtStatus.Success].length ≤
        (parallelTick (some 1) (some 2) none none
          [RtStatus.Failure, RtStatus.Failure, RtStatus.Success]
          (ParState.mk 0 0 ∅)).2.successCount) ∧
    ((parallelTick (some 1) (some 2) none none
        [RtStatus.Failure, RtStatus.Failure, RtStatus.Success]
        (ParState.mk 0 0 ∅)).1 = RtStatus.Success →
      (parallelTick (some 1) (some 2) none none
        [RtStatus.Failure, RtStatus.Failure, RtStatus.Success]
        (ParState.mk 0 0 ∅)).2.successCount =
        parThreshold (some 1) none
          [RtStatus.Failure, RtStatus.Failure, RtStatus.Success].length) ∧
    ((parallelTick (some 1) (some 2) none none
        [RtStatus.Failure, RtStatus.Failure, RtStatus.Success]
        (ParState.mk 0 0 ∅)).1 = RtStatus.Failure ↔
      parThreshold (some 2) none
          [RtStatus.Failure, RtStatus.Failure, RtStatus.Success].length ≤
        (parallelTick (some 1) (some 2) none none
          [RtStatus.Failure, RtStatus.Failure, RtStatus.Success]
          (ParState.mk 0 0 ∅)).2.failureCount) ∧
    ((parallelTick (some 1) (some 2) none none
        [RtStatus.Failure, RtStatus.Failure, RtStatus.Success]
        (ParState.mk 0 0 ∅)).1 = RtStatus.Failure →
      (parallelTick (some 1) (some 2) none none
        [RtStatus.Failure, RtStatus.Failure, RtStatus.Success]
        (ParState.mk 0 0 ∅)).2.failureCount =
        parThreshold (some 2) none
          [RtStatus.Failure, RtStatus.Failure, RtStatus.Success].length) ∧
    ((some 1 : Option Nat) = none → (none : Option Nat) = none →
      parThreshold (some 1) none
        [RtStatus.Failure, RtStatus.Failure, RtStatus.Success].length =
        [RtStatus.Failure, RtStatus.Failure, RtStatus.Success].length) ∧
    ((some 2 : Option Nat) = none → (none : Option Nat) = none →
      parThreshold (some 2) none
        [RtStatus.Failure, RtStatus.Failure, RtStatus.Success].length =
        [RtStatus.Failure, RtStatus.Failure, RtStatus.Success].length) :=
  c2_parallel_thresholds (some 1) (some 2) none none
    [RtStatus.Failure, RtStatus.Failure, RtStatus.Success]
    (ParState.mk 0 0 ∅) (by decide) (by decide) (by decide)

/-- The `Parallel::tick` child loop skips every child whose index is in
`completed_list`; if all indices about to be visited are in it, the loop falls
through and returns `Running` with the state unchanged. -/
theorem parGo_allCompleted (st ft : Nat) :
    ∀ (cs : List RtStatus) (i : Nat) (s : ParState),
      (∀ j, i ≤ j → j < i + cs.length → j ∈ s.completed) →
      parGo st ft cs i s = (RtStatus.Running, s) := by
  intro cs
  induction cs with
  | nil => intro i s _; rfl
  | cons c rest ih =>
    intro i s h
    have hmem : i ∈ s.completed := h i (le_refl i) (by simp)
    have hgo : parGo st ft (c :: rest) i s = parGo st ft rest (i + 1) s := by
      simp [parGo, hmem]
    rw [hgo]
    refine ih (i + 1) s ?_
    intro j h1 h2
    refine h j (by omega) ?_
    simp only [List.length_cons]
    omega

/-- C10: once every child of a `Parallel` is in `completed_list` while neither
threshold returned (so the tick that completed the last child fell through to
`Running`), every subsequent tick skips every child, returns `Running`, and
leaves the state — counters included — unchanged: a completed status is never
returned from that state. -/
theorem c10_parallel_stuck (portS portF fieldS fieldF : Option Nat)
    (css : List (List RtStatus)) (s : ParState) (n : Nat)
    (hn : 0 < n)
    (hcov : ∀ j, j < n → j ∈ s.completed)
    (hlen : ∀ cs ∈ css, cs.length = n) :
    (∀ cs : List RtStatus, cs.length = n →
      parallelTick portS portF fieldS fieldF cs s = (RtStatus.Running, s)) ∧
    (∀ r ∈ (parallelRun portS portF fieldS fieldF css s).1, r = RtStatus.Running) ∧
    (parallelRun portS portF fieldS fieldF css s).2 = s := by
  have htick : ∀ cs : List RtStatus, cs.length = n →
      parallelTick portS portF fieldS fieldF cs s = (RtStatus.Running, s) := by
    intro cs hcs
    have hne : ¬ cs.length = 0 := by omega
    have h1 : parallelTick portS portF fieldS fieldF cs s =
        parGo (parThreshold portS fieldS cs.length) (parThreshold portF fieldF cs.length)
          cs 0 s := by
      simp [parallelTick, hne]
    rw [h1]
    exact parGo_allCompleted _ _ cs 0 s (fun j hj1 hj2 => hcov j (by omega))
  refine ⟨htick, ?_⟩
  induction css with
  | nil => exact ⟨by simp [parallelRun], rfl⟩
  | cons cs rest ih =>
    have h1 := htick cs (hlen cs (by simp))
    have hr := ih (fun c hc => hlen c (by simp [hc]))
    have hred : parallelRun portS portF fieldS fieldF (cs :: rest) s =
        (RtStatus.Running :: (parallelRun portS portF fieldS fieldF rest s).1,
          (parallelRun portS portF fieldS fieldF rest s).2) := by
      rw [parallelRun, h1]
    rw [hred]
    refine ⟨?_, hr.2⟩
    intro r hmem
    rcases List.mem_cons.1 hmem with h | h
    · exact h
    · exact hr.1 r h

/-- C10 witness: two children both already completed (one success, one failure,
thresholds 2/2): a tick where both children would succeed and a tick where both
would fail each return `Running`, and the state is unchanged after the run. -/
theorem c10_parallel_stuck_witness :
    parallelTick (some 2) (some 2) none none [RtStatus.Success, RtStatus.Success]
      (ParState.mk 1 1 {0, 1}) = (RtStatus.Running, ParState.mk 1 1 {0, 1}) ∧
    (parallelRun (some 2) (some 2) none none
      [[RtStatus.Success, RtStatus.Success], [RtStatus.Failure, RtStatus.Failure]]
      (ParState.mk 1 1 {0, 1})).2 = ParState.mk 1 1 {0, 1} := by
  have h := c10_parallel_stuck (some 2) (some 2) none none
    [[RtStatus.Success, RtStatus.Success], [RtStatus.Failure, RtStatus.Failure]]
    (ParState.mk 1 1 {0, 1}) 2 (by decide) (by decide) (by decide)
  exact ⟨h.1 [RtStatus.Success, RtStatus.Success] (by decide), h.2.2⟩

/-- C5: `Blackboard::get_entry` returns the locally stored value when present;
otherwise it recurses into the live parent under the `internal_to_external`
remapping of the key (the key itself when no remapping exists), and returns
`none` when no live parent exists.  `Blackboard::set` writes only into the
local store — the parent chain is untouched, so a value written in a child
scope is never visible to the parent scope. -/
theorem c5_blackboard {α : Type} (s : Scope α) (ps : List (Scope α)) (k : String) (v : α) :
    (s.storage.lookup k = some v → getEntry (s :: ps) k = some v) ∧
    (s.storage.lookup k = none → ps ≠ [] →
      getEntry (s :: ps) k = getEntry ps ((s.internalToExternal.lookup k).getD k)) ∧
    (s.storage.lookup k = none → getEntry [s] k = none) ∧
    (bbSet (s :: ps) k v = { s with storage := insertA s.storage k v } :: ps) ∧
    ((bbSet (s :: ps) k v).tail = ps) := by
  refine ⟨?_, ?_, ?_, rfl, rfl⟩
  · intro h; simp [getEntry, h]
  · intro h hps
    cases ps with
    | nil => exact absurd rfl hps
    | cons p ps' => simp [getEntry, h]
  · intro h; simp [getEntry, h]

/-- C5 witness: a two-scope chain — a local hit wins over the parent, a miss
with a remapping `y → x` routes into the parent's `x`, a single dead-parent
scope yields `none`, and a write only touches the head scope. -/
theorem c5_blackboard_witness :
    getEntry [Scope.mk [("a", (1 : Nat))] [("y", "x")], Scope.mk [("x", 42)] []] "a" =
      some 1 ∧
    getEntry [Scope.mk [("a", (1 : Nat))] [("y", "x")], Scope.mk [("x", 42)] []] "y" =
      getEntry [Scope.mk [("x", (42 : Nat))] []]
        (((Scope.mk [("a", (1 : Nat))] [("y", "x")]).internalToExternal.lookup "y").getD "y") ∧
    getEntry [Scope.mk [("a", (1 : Nat))] [("y", "x")]] "q" = none ∧
    (bbSet [Scope.mk [("a", (1 : Nat))] [("y", "x")], Scope.mk [("x", 42)] []] "b" 7).tail =
      [Scope.mk [("x", (42 : Nat))] []] :=
  ⟨(c5_blackboard (Scope.mk [("a", (1 : Nat))] [("y", "x")])
      [Scope.mk [("x", 42)] []] "a" 1).1 (by decide),
   (c5_blackboard (Scope.mk [("a", (1 : Nat))] [("y", "x")])
      [Scope.mk [("x", 42)] []] "y" 1).2.1 (by decide) (List.cons_ne_nil _ _),
   (c5_blackboard (Scope.mk [("a", (1 : Nat))] [("y", "x")]) [] "q" 1).2.2.1 (by decide),
   (c5_blackboard (Scope.mk [("a", (1 : Nat))] [("y", "x")])
      [Scope.mk [("x", 42)] []] "b" 7).2.2.2.2⟩

/-- C7 counterexample: a `CompositeWrapper` whose proxy status is `Idle` and
whose `tick_status` produces `Success`: `CompositeWrapper::tick` delegates to
`tick_status` without touching the proxy status, so the status is never set to
`Running` and after the tick `status()` is still `Idle`, not the returned
`Success` — refuting "composite, decorator, and action alike". -/
theorem c7_status_counterexample :
    compositeWrapperTick NodeStatus.Idle RtStatus.Success =
      (NodeStatus.Idle, RtStatus.Success, NodeStatus.Idle) ∧
    NodeStatus.Idle ≠ RtStatus.toNodeStatus RtStatus.Success := by
  decide

/-- C7 amended: only `ActionWrapper::tick` follows the status protocol — on an
`Idle` node it first sets the status to `Running`, and it persists the
`tick_status` result on the proxy, so after the tick `status()` equals the
returned value; `CompositeWrapper::tick` and `DecoratorWrapper::tick` delegate
to the kind-specific `tick_status` without reading or writing the proxy status,
which keeps its prior value. -/
theorem c7_status_amended (st inner : NodeStatus) (r : RtStatus) :
    (st = NodeStatus.Idle → (actionWrapperTick st inner).1 = NodeStatus.Running) ∧
    (st ≠ NodeStatus.Idle → (actionWrapperTick st inner).1 = st) ∧
    (actionWrapperTick st inner).2.1 = inner ∧
    (actionWrapperTick st inner).2.2 = inner ∧
    compositeWrapperTick st r = (st, r, st) ∧
    decoratorWrapperTick st r = (st, r, st) := by
  refine ⟨?_, ?_, rfl, rfl, rfl, rfl⟩
  · intro h; simp [actionWrapperTick, h]
  · intro h; simp [actionWrapperTick, h]

/-- C7 amended witness: an idle action moves to `Running` before its work, a
running action keeps `Running`, and an idle composite keeps `Idle` through
its tick. -/
theorem c7_status_amended_witness :
    (actionWrapperTick NodeStatus.Idle NodeStatus.Success).1 = NodeStatus.Running ∧
    (actionWrapperTick NodeStatus.Running NodeStatus.Success).1 = NodeStatus.Running ∧
    compositeWrapperTick NodeStatus.Idle RtStatus.Failure =
      (NodeStatus.Idle, RtStatus.Failure, NodeStatus.Idle) :=
  ⟨(c7_status_amended NodeStatus.Idle NodeStatus.Success RtStatus.Failure).1 rfl,
   (c7_status_amended NodeStatus.Running NodeStatus.Success RtStatus.Failure).2.1
     (by decide),
   (c7_status_amended NodeStatus.Idle NodeStatus.Success RtStatus.Failure).2.2.2.2.1⟩

/-- C8: `get_input` treats a port spec as a blackboard reference exactly when
`is_ref_key` holds (the spec starts with `\x7b` and ends with `\x7d`), and the key
looked up is the spec with every `\x7b` and `\x7d` removed wherever they occur: the
spec `"\x7ba\x7d\x7bb\x7d"` is a reference to the key `"ab"`, not a literal. -/
theorem c8_ref_key {α β : Type} (parseLit : String → Option β) (fromValue : α → Option β)
    (bb : List (Scope α)) (spec : String) :
    (isRefKey spec = true →
      getInput parseLit fromValue [("port", spec)] bb "port" =
        (getEntry bb (stripRefTag spec)).bind fromValue) ∧
    (isRefKey spec = false →
      getInput parseLit fromValue [("port", spec)] bb "port" = parseLit spec) ∧
    isRefKey "\x7ba\x7d\x7bb\x7d" = true ∧
    stripRefTag "\x7ba\x7d\x7bb\x7d" = "ab" ∧
    getInput parseLit fromValue [("port", "\x7ba\x7d\x7bb\x7d")] bb "port" =
      (getEntry bb "ab").bind fromValue := by
  have hlook : ∀ sp : String, ([("port", sp)] : List (String × String)).lookup "port" =
      some sp := by
    intro sp; rfl
  have href : ∀ sp : String, isRefKey sp = true →
      getInput parseLit fromValue [("port", sp)] bb "port" =
        (getEntry bb (stripRefTag sp)).bind fromValue := by
    intro sp h
    unfold getInput
    rw [hlook]
    cases hget : getEntry bb (stripRefTag sp) <;> simp [h, hget]
  refine ⟨href spec, ?_, by decide, by decide, ?_⟩
  · intro h
    unfold getInput
    rw [hlook]
    simp [h]
  · have h := href "\x7ba\x7d\x7bb\x7d" (by decide)
    rwa [show stripRefTag "\x7ba\x7d\x7bb\x7d" = "ab" by decide] at h

/-- C8 witness: with the blackboard holding `ab = 7`, the port spec
`"\x7ba\x7d\x7bb\x7d"` is resolved by a blackboard lookup of `"ab"`. -/
theorem c8_ref_key_witness :
    getInput (fun _ => (none : Option Nat)) (fun v : Nat => some v)
      [("port", "\x7ba\x7d\x7bb\x7d")] [Scope.mk [("ab", (7 : Nat))] []] "port" =
      (getEntry [Scope.mk [("ab", (7 : Nat))] []]
        (stripRefTag "\x7ba\x7d\x7bb\x7d")).bind (fun v : Nat => some v) :=
  (c8_ref_key (fun _ => (none : Option Nat)) (fun v : Nat => some v)
    [Scope.mk [("ab", (7 : Nat))] []] "\x7ba\x7d\x7bb\x7d").1 (by decide)

/-- C9: `SetBlackboard::tick_status` returns `Failure` and leaves the
blackboard unchanged whenever the `output_key` port or the `value` port cannot
be read as a string (absent port, or a reference to an absent or non-string
blackboard entry); it performs the write and returns `Success` exactly when
both reads succeed. -/
theorem c9_set_blackboard (ports : List (String × String))
    (bb : List (Scope (Option String))) :
    (getInputString ports bb "output_key" = none →
      setBlackboardTick ports bb = (NodeStatus.Failure, bb)) ∧
    (∀ k, getInputString ports bb "output_key" = some k →
      getInputString ports bb "value" = none →
      setBlackboardTick ports bb = (NodeStatus.Failure, bb)) ∧
    (∀ k v, getInputString ports bb "output_key" = some k →
      getInputString ports bb "value" = some v →
      setBlackboardTick ports bb = (NodeStatus.Success, bbSet bb k (some v))) := by
  refine ⟨?_, ?_, ?_⟩
  · intro h; simp [setBlackboardTick, h]
  · intro k h1 h2; simp [setBlackboardTick, h1, h2]
  · intro k v h1 h2; simp [setBlackboardTick, h1, h2]

/-- C9 witness: with both ports given as literals the write happens and the
tick succeeds; with no ports at all the tick fails and the blackboard is
unchanged. -/
theorem c9_set_blackboard_witness :
    setBlackboardTick [("output_key", "k"), ("value", "v")] [Scope.mk [] []] =
      (NodeStatus.Success, bbSet [Scope.mk [] []] "k" (some "v")) ∧
    setBlackboardTick [] [Scope.mk ([] : List (String × Option String)) []] =
      (NodeStatus.Failure, [Scope.mk [] []]) :=
  ⟨(c9_set_blackboard [("output_key", "k"), ("value", "v")] [Scope.mk [] []]).2.2
      "k" "v" (by decide) (by decide),
   (c9_set_blackboard [] [Scope.mk [] []]).1 (by decide)⟩

end Cornerstone
